import Mathlib

/-!
Shallow embedding of the paging and frame-allocation core of the
nepheliadrs kernel (src/src/memory/mod.rs, src/src/memory/paging/mod.rs,
src/src/memory/paging/entry.rs).

Machine integers (u64 / usize) are modelled as Nat with an explicit
mod 2^64 at the multiplications where the source performs usize
arithmetic.  Rust panics (assert!, expect, unwrap) are modelled by the
PResult type below: a panicking execution produces PResult.panicked and
a normal one produces PResult.ok.

The files table.rs and area_frame_allocator.rs are referenced by the
sources (mod memory::paging::table, memory::area_frame_allocator) but
are not present under src/; the definitions for those two modules are
modelled from the spec (sections 4.2 and 4.5) and carry a doc comment
saying so.
-/

namespace Nephelia

/-- Result of a Rust computation that may panic. -/
inductive PResult (α : Type) where
  | panicked : PResult α
  | ok : α → PResult α
deriving DecidableEq

def PResult.bind {α β : Type} : PResult α → (α → PResult β) → PResult β
  | .panicked, _ => .panicked
  | .ok a, f => f a

/-- memory/mod.rs: PAGE_SIZE. -/
def PAGE_SIZE : Nat := 4096

/-- memory/mod.rs: a physical memory frame, identified by its index. -/
structure Frame where
  number : Nat
deriving DecidableEq

/-- memory/mod.rs: Frame::containing_address. -/
def Frame.containing_address (address : Nat) : Frame :=
  ⟨address / PAGE_SIZE⟩

/-- memory/mod.rs: Frame::start_address (usize multiplication, mod 2^64). -/
def Frame.start_address (f : Frame) : Nat :=
  f.number * PAGE_SIZE % 2 ^ 64

/-- paging/entry.rs: an entry is a 64-bit word. -/
abbrev Entry := Nat

/-- paging/entry.rs bitflags: PRESENT = 1 << 0. -/
def PRESENT : Nat := 1 <<< 0
/-- paging/entry.rs bitflags: WRITEABLE = 1 << 1. -/
def WRITEABLE : Nat := 1 <<< 1
/-- paging/entry.rs bitflags: USER_ACCESSIBLE = 1 << 2. -/
def USER_ACCESSIBLE : Nat := 1 <<< 2
/-- paging/entry.rs bitflags: WRITE_THROUGH = 1 << 3. -/
def WRITE_THROUGH : Nat := 1 <<< 3
/-- paging/entry.rs bitflags: NO_CACHE = 1 << 4. -/
def NO_CACHE : Nat := 1 <<< 4
/-- paging/entry.rs bitflags: ACCESSED = 1 << 5. -/
def ACCESSED : Nat := 1 <<< 5
/-- paging/entry.rs bitflags: DIRTY = 1 << 6. -/
def DIRTY : Nat := 1 <<< 6
/-- paging/entry.rs bitflags: HUGE_PAGE = 1 << 7. -/
def HUGE_PAGE : Nat := 1 <<< 7
/-- paging/entry.rs bitflags: GLOBAL = 1 << 8. -/
def GLOBAL : Nat := 1 <<< 8
/-- paging/entry.rs bitflags: NO_EXECUTE = 1 << 63. -/
def NO_EXECUTE : Nat := 1 <<< 63

/-- The union of every flag bit declared by the bitflags! block; this is
the mask EntryFlags::from_bits_truncate keeps. -/
def ALL_FLAGS : Nat :=
  PRESENT ||| WRITEABLE ||| USER_ACCESSIBLE ||| WRITE_THROUGH ||| NO_CACHE |||
  ACCESSED ||| DIRTY ||| HUGE_PAGE ||| GLOBAL ||| NO_EXECUTE

/-- bitflags contains: (self.bits & other.bits) == other.bits. -/
def flags_contains (f g : Nat) : Bool := f &&& g == g

/-- paging/entry.rs: Entry::is_unused. -/
def Entry.is_unused (e : Entry) : Bool := e == 0

/-- paging/entry.rs: Entry::flags = EntryFlags::from_bits_truncate(self.0). -/
def Entry.flags (e : Entry) : Nat := e &&& ALL_FLAGS

/-- paging/entry.rs: Entry::pointed_frame. -/
def Entry.pointed_frame (e : Entry) : Option Frame :=
  if flags_contains (Entry.flags e) PRESENT then
    some (Frame.containing_address (e &&& 0x000ffffffffff000))
  else
    none

/-- paging/entry.rs: Entry::set.  The assert on
frame.start_address() & !0x000ffffffffff000 == 0 is modelled as the
panicked branch; !mask on a 64-bit usize is 0xfff0000000000fff. -/
def Entry.set (frame : Frame) (flags : Nat) : PResult Entry :=
  if Frame.start_address frame &&& 0xfff0000000000fff = 0 then
    .ok (Frame.start_address frame ||| flags)
  else
    .panicked

/-- paging/mod.rs: ENTRY_COUNT. -/
def ENTRY_COUNT : Nat := 512

/-- paging/mod.rs: a page of virtual memory. -/
structure Page where
  number : Nat
deriving DecidableEq

/-- The canonical-address test asserted by Page::containing_address,
together with the usize domain bound. -/
def is_canonical (address : Nat) : Bool :=
  decide (address < 0x0000800000000000) ||
    (decide (0xffff800000000000 ≤ address) && decide (address < 2 ^ 64))

/-- paging/mod.rs: Page::containing_address (assert! modelled as panicked). -/
def Page.containing_address (address : Nat) : PResult Page :=
  if is_canonical address then .ok ⟨address / PAGE_SIZE⟩ else .panicked

/-- paging/mod.rs: Page::start_address (usize multiplication, mod 2^64). -/
def Page.start_address (p : Page) : Nat :=
  p.number * PAGE_SIZE % 2 ^ 64

/-- paging/mod.rs: Page::p4_index. -/
def Page.p4_index (p : Page) : Nat := (p.number >>> 27) &&& 0o777
/-- paging/mod.rs: Page::p3_index. -/
def Page.p3_index (p : Page) : Nat := (p.number >>> 18) &&& 0o777
/-- paging/mod.rs: Page::p2_index. -/
def Page.p2_index (p : Page) : Nat := (p.number >>> 9) &&& 0o777
/-- paging/mod.rs: Page::p1_index. -/
def Page.p1_index (p : Page) : Nat := (p.number >>> 0) &&& 0o777

/-- The physical page-table state: for every frame number, the 512-entry
table stored in that frame (a table is read as a function from slot index
to the raw 64-bit entry), plus the frame of the active P4 table that the
RecusivePageTable handle owns. -/
structure Machine where
  mem : Nat → Nat → Nat
  root : Nat

/-- Store one entry: the single memory write performed by
`table[index] = entry` through the recursive mapping. -/
def writeEntry (m : Machine) (tf i e : Nat) : Machine :=
  { m with mem := fun f j => if f = tf ∧ j = i then e else m.mem f j }

/-- Zero all 512 entries of the table held in frame tf (Table::zero). -/
def zeroTable (m : Machine) (tf : Nat) : Machine :=
  { m with mem := fun f j => if f = tf then 0 else m.mem f j }

/-- The table selected by one entry: present and not huge yields the
frame number of the child table, anything else yields none. -/
def entry_next (e : Nat) : Option Nat :=
  if flags_contains (Entry.flags e) PRESENT &&
      !flags_contains (Entry.flags e) HUGE_PAGE then
    (Entry.pointed_frame e).map Frame.number
  else
    none

/-- Modelled from the spec: table.rs is referenced by paging/mod.rs but is
absent from src/.  Spec section 4.5: next_table(index) returns the child
table when the entry at the index is present and not a huge page, and no
value otherwise.  The child table is identified by the frame the entry
points to; the recursive-mapping address computation is the mechanism by
which the source reaches that frame as ordinary memory. -/
def next_table (m : Machine) (tf i : Nat) : Option Nat :=
  entry_next (m.mem tf i)

/-- Modelled from the spec: table.rs is absent from src/.  Spec section
4.5: next_table_create(index, allocator) returns the existing child when
present, and otherwise obtains a fresh frame from the allocator (memory
exhaustion during a map is fatal, section 7), installs it as
PRESENT | WRITEABLE, zero-initializes the 512 new entries, and returns
the now-present child.  The allocator is modelled as the list of frame
numbers it will hand out. -/
def next_table_create (m : Machine) (tf i : Nat) (alloc : List Nat) :
    PResult (Machine × Nat × List Nat) :=
  match next_table m tf i with
  | some child => .ok (m, child, alloc)
  | none =>
    match alloc with
    | [] => .panicked
    | f :: rest =>
      match Entry.set ⟨f⟩ (PRESENT ||| WRITEABLE) with
      | .panicked => .panicked
      | .ok e => .ok (zeroTable (writeEntry m tf i e) f, f, rest)

/-- paging/mod.rs: the 2 MiB arm of the huge_page closure inside
translate_page (the code that runs after the 1 GiB test falls through).
Note the source checks p2_entry.pointed_frame() but never checks the
HUGE_PAGE flag on the p2 entry; the assert on 2 MiB alignment is the
panicked branch. -/
def translate_huge_p2 (m : Machine) (p3f : Nat) (page : Page) :
    PResult (Option Frame) :=
  match next_table m p3f page.p3_index with
  | none => .ok none
  | some p2f =>
    match Entry.pointed_frame (m.mem p2f page.p2_index) with
    | none => .ok none
    | some start_frame =>
      if start_frame.number % ENTRY_COUNT = 0 then
        .ok (some ⟨start_frame.number + page.p1_index⟩)
      else
        .panicked

/-- paging/mod.rs: the huge_page closure of translate_page.  The 1 GiB
arm checks both pointed_frame and the HUGE_PAGE flag, then asserts 1 GiB
alignment of the start frame. -/
def translate_huge (m : Machine) (page : Page) : PResult (Option Frame) :=
  match next_table m m.root page.p4_index with
  | none => .ok none
  | some p3f =>
    match Entry.pointed_frame (m.mem p3f page.p3_index) with
    | some start_frame =>
      if flags_contains (Entry.flags (m.mem p3f page.p3_index)) HUGE_PAGE then
        if start_frame.number % (ENTRY_COUNT * ENTRY_COUNT) = 0 then
          .ok (some ⟨start_frame.number + page.p2_index * ENTRY_COUNT +
            page.p1_index⟩)
        else
          .panicked
      else
        translate_huge_p2 m p3f page
    | none => translate_huge_p2 m p3f page

/-- paging/mod.rs: RecusivePageTable::translate_page.  The main walk
descends P4 -> P3 -> P2 -> P1 with next_table and reads the pointed
frame of the P1 entry; or_else evaluates the huge_page closure only when
the main walk produced no frame. -/
def translate_page (m : Machine) (page : Page) : PResult (Option Frame) :=
  let main :=
    ((((next_table m m.root page.p4_index).bind
        (fun p3f => next_table m p3f page.p3_index)).bind
        (fun p2f => next_table m p2f page.p2_index)).bind
        (fun p1f => Entry.pointed_frame (m.mem p1f page.p1_index)))
  match main with
  | some fr => .ok (some fr)
  | none => translate_huge m page

/-- paging/mod.rs: RecusivePageTable::translate.  The in-page offset is
added back to the frame start address with usize arithmetic. -/
def translate (m : Machine) (virtual_address : Nat) : PResult (Option Nat) :=
  match Page.containing_address virtual_address with
  | .panicked => .panicked
  | .ok page =>
    match translate_page m page with
    | .panicked => .panicked
    | .ok none => .ok none
    | .ok (some fr) =>
      .ok (some ((fr.number * PAGE_SIZE + virtual_address % PAGE_SIZE) % 2 ^ 64))

/-- paging/mod.rs: RecusivePageTable::map_to.  Creates the child tables
with next_table_create, asserts the P1 slot is unused, and installs
frame with flags | PRESENT. -/
def map_to (m : Machine) (page : Page) (frame : Frame) (flags : Nat)
    (alloc : List Nat) : PResult (Machine × List Nat) :=
  match next_table_create m m.root page.p4_index alloc with
  | .panicked => .panicked
  | .ok (m1, p3f, a1) =>
    match next_table_create m1 p3f page.p3_index a1 with
    | .panicked => .panicked
    | .ok (m2, p2f, a2) =>
      match next_table_create m2 p2f page.p2_index a2 with
      | .panicked => .panicked
      | .ok (m3, p1f, a3) =>
        if Entry.is_unused (m3.mem p1f page.p1_index) then
          match Entry.set frame (flags ||| PRESENT) with
          | .panicked => .panicked
          | .ok e => .ok (writeEntry m3 p1f page.p1_index e, a3)
        else
          .panicked

/-- paging/mod.rs: RecusivePageTable::unmap.  Asserts the page is mapped
(via translate), descends with next_table_mut (expect panics when any
level is missing or huge), unwraps the pointed frame of the P1 entry,
clears the entry and flushes the TLB (a no-op on the memory model).  The
call to deallocate_frame is commented out in the source, so the
allocator is returned unchanged. -/
def unmap (m : Machine) (page : Page) (alloc : List Nat) :
    PResult (Machine × List Nat) :=
  match translate m (Page.start_address page) with
  | .panicked => .panicked
  | .ok none => .panicked
  | .ok (some _) =>
    match ((next_table m m.root page.p4_index).bind
        (fun p3f => next_table m p3f page.p3_index)).bind
        (fun p2f => next_table m p2f page.p2_index) with
    | none => .panicked
    | some p1f =>
      match Entry.pointed_frame (m.mem p1f page.p1_index) with
      | none => .panicked
      | some _ => .ok (writeEntry m p1f page.p1_index 0, alloc)

/-- The frames that hold the P3, P2 and P1 tables for a page after
map_to runs: each level keeps its existing child when the entry is a
present non-huge table pointer and otherwise receives the next frame the
allocator will supply.  Once one level is created its table is zeroed,
so every level below it is created as well. -/
def walk_path (m : Machine) (page : Page) (a1 a2 a3 : Nat) :
    Nat × Nat × Nat :=
  match next_table m m.root page.p4_index with
  | none => (a1, a2, a3)
  | some p3f =>
    match next_table m p3f page.p3_index with
    | none => (p3f, a1, a2)
    | some p2f =>
      match next_table m p2f page.p2_index with
      | none => (p3f, p2f, a1)
      | some p1f => (p3f, p2f, p1f)

def PResult.isOk {α : Type} : PResult α → Bool
  | .panicked => false
  | .ok _ => true

/-- The machine whose tables are all empty: the inactive state from which
map_to builds every level. -/
def m0 : Machine := { mem := fun _ _ => 0, root := 0 }

/-- A machine whose P4, P3 and P2 entries for virtual address 0 are
present non-huge table pointers (child table frames 1, 2 and 3); the P1
entry for address 0 holds p1e. -/
def chainMachine (p1e : Nat) : Machine :=
  { mem := fun f i =>
      if f = 0 ∧ i = 0 then 0x1003
      else if f = 1 ∧ i = 0 then 0x2003
      else if f = 2 ∧ i = 0 then 0x3003
      else if f = 3 ∧ i = 0 then p1e
      else 0,
    root := 0 }

/-- A machine with a present non-huge P4 entry for address 0 (child
table frame 1) whose P3 entry 0 is a huge 1 GiB mapping of frame
262144 = 512 * 512 (entry 0x40000081 = frame address | HUGE | PRESENT). -/
def mC5 : Machine :=
  { mem := fun f i =>
      if f = 0 ∧ i = 0 then 0x1003
      else if f = 1 ∧ i = 0 then 0x40000081
      else 0,
    root := 0 }

/-- Modelled from the spec: area_frame_allocator.rs is referenced by
memory/mod.rs but absent from src/.  Spec section 4.2: the allocator
keeps the lowest not-yet-considered frame number (the cursor) plus the
construction inputs: kernel image bounds, boot-information bounds, and
the boot-provided usable regions as (base_addr, length) pairs. -/
structure AreaFrameAllocator where
  next_free_frame : Nat
  kernel_start : Nat
  kernel_end : Nat
  multiboot_start : Nat
  multiboot_end : Nat
  areas : List (Nat × Nat)

/-- A frame shares at least one byte with the window [s, e). -/
def frame_overlaps (f s e : Nat) : Bool :=
  decide (f * 4096 < e) && decide (s < f * 4096 + 4096)

/-- A frame lies within the usable region a = (base_addr, length). -/
def frame_in_area (f : Nat) (a : Nat × Nat) : Bool :=
  decide (a.1 ≤ f * 4096) && decide (f * 4096 + 4096 ≤ a.1 + a.2)

/-- A frame falls inside the kernel-image or boot-information exclusion
window. -/
def frame_excluded (st : AreaFrameAllocator) (f : Nat) : Bool :=
  frame_overlaps f st.kernel_start st.kernel_end ||
    frame_overlaps f st.multiboot_start st.multiboot_end

/-- One past the largest frame number any region can reach. -/
def frame_limit (st : AreaFrameAllocator) : Nat :=
  st.areas.foldr (fun a acc => max acc ((a.1 + a.2) / 4096 + 1)) 0

/-- Modelled from the spec: area_frame_allocator.rs is absent from src/.
Spec section 4.2: allocate_frame advances to the first usable frame
number that lies within some memory region, is at or above the cursor,
and does not overlap either exclusion window (skipping past a window and
retrying is equivalent to taking the least such frame); if no region can
supply a frame the result is no value.  On success the cursor moves one
past the returned frame. -/
def allocate_frame (st : AreaFrameAllocator) :
    Option (Frame × AreaFrameAllocator) :=
  (((List.range (frame_limit st)).filter (fun f =>
      decide (st.next_free_frame ≤ f) && st.areas.any (frame_in_area f) &&
        !frame_excluded st f)).head?).map
    (fun f => (⟨f⟩, { st with next_free_frame := f + 1 }))

/-- The frame numbers returned by n successive allocate_frame calls. -/
def alloc_run : AreaFrameAllocator → Nat → List Nat
  | _, 0 => []
  | st, n + 1 =>
    match allocate_frame st with
    | none => []
    | some (fr, st2) => fr.number :: alloc_run st2 n

/-- The claim C8 configuration: one usable region [0, 0x100000), kernel
image at [0x10000, 0x20000), boot information at [0x20000, 0x21000). -/
def c8Alloc : AreaFrameAllocator :=
  { next_free_frame := 0, kernel_start := 0x10000, kernel_end := 0x20000,
    multiboot_start := 0x20000, multiboot_end := 0x21000,
    areas := [(0, 0x100000)] }

/-! ### Reading through memory updates -/

theorem writeEntry_root (m : Machine) (tf i e : Nat) :
    (writeEntry m tf i e).root = m.root := rfl

theorem zeroTable_root (m : Machine) (tf : Nat) :
    (zeroTable m tf).root = m.root := rfl

theorem writeEntry_mem_self (m : Machine) (tf i e : Nat) :
    (writeEntry m tf i e).mem tf i = e := by
  simp [writeEntry]

theorem writeEntry_mem_ne (m : Machine) {f tf : Nat} (j i e : Nat)
    (h : f ≠ tf) : (writeEntry m tf i e).mem f j = m.mem f j := by
  simp [writeEntry, h]

theorem zeroTable_mem_self (m : Machine) (tf j : Nat) :
    (zeroTable m tf).mem tf j = 0 := by
  simp [zeroTable]

theorem zeroTable_mem_ne (m : Machine) {f tf : Nat} (j : Nat)
    (h : f ≠ tf) : (zeroTable m tf).mem f j = m.mem f j := by
  simp [zeroTable, h]

/-! ### Bit-level facts about entry words -/

theorem testBit_mul_4096 (f i : Nat) :
    (f * 4096).testBit i = (decide (i ≥ 12) && f.testBit (i - 12)) := by
  have h : f * 4096 = f <<< 12 := by rw [Nat.shiftLeft_eq]
  rw [h, Nat.testBit_shiftLeft]

theorem mul_4096_lt (f : Nat) (h : f < 2 ^ 40) : f * 4096 < 2 ^ 52 := by
  omega

/-- A 4 KiB-aligned address below 2^52 has no bits outside 12..51, so the
assert mask of Entry::set clears it. -/
theorem land_highmask_eq_zero (f : Nat) (h : f < 2 ^ 40) :
    f * 4096 &&& 0xfff0000000000fff = 0 := by
  apply Nat.eq_of_testBit_eq
  intro i
  rw [Nat.zero_testBit, Nat.testBit_land]
  have hm : (0xfff0000000000fff : Nat) = (2 ^ 12 - 1) ||| ((2 ^ 12 - 1) <<< 52) := by
    decide
  rcases Nat.lt_or_ge i 12 with h12 | h12
  · have hx : (f * 4096).testBit i = false := by
      rw [testBit_mul_4096]
      simp [show ¬(i ≥ 12) by omega]
    simp [hx]
  · rcases Nat.lt_or_ge i 52 with h52 | h52
    · have hmb : (0xfff0000000000fff : Nat).testBit i = false := by
        rw [hm, Nat.testBit_lor, Nat.testBit_shiftLeft,
          Nat.testBit_two_pow_sub_one]
        simp [show ¬(i < 12) by omega, show ¬(i ≥ 52) by omega]
      simp [hmb]
    · have hx : (f * 4096).testBit i = false :=
        Nat.testBit_lt_two_pow
          (Nat.lt_of_lt_of_le (mul_4096_lt f h)
            (Nat.pow_le_pow_right (by norm_num) h52))
      simp [hx]

/-- A 4 KiB-aligned address below 2^52 is untouched by the 12..51
address mask of pointed_frame. -/
theorem land_addrmask_self (f : Nat) (h : f < 2 ^ 40) :
    f * 4096 &&& 0x000ffffffffff000 = f * 4096 := by
  apply Nat.eq_of_testBit_eq
  intro i
  rw [Nat.testBit_land]
  have hm : (0x000ffffffffff000 : Nat) = (2 ^ 40 - 1) <<< 12 := by decide
  rcases Nat.lt_or_ge i 12 with h12 | h12
  · have hx : (f * 4096).testBit i = false := by
      rw [testBit_mul_4096]
      simp [show ¬(i ≥ 12) by omega]
    simp [hx]
  · rcases Nat.lt_or_ge i 52 with h52 | h52
    · have hmb : (0x000ffffffffff000 : Nat).testBit i = true := by
        rw [hm, Nat.testBit_shiftLeft, Nat.testBit_two_pow_sub_one]
        simp [show i ≥ 12 by omega, show i - 12 < 40 by omega]
      simp [hmb]
    · have hx : (f * 4096).testBit i = false :=
        Nat.testBit_lt_two_pow
          (Nat.lt_of_lt_of_le (mul_4096_lt f h)
            (Nat.pow_le_pow_right (by norm_num) h52))
      simp [hx]

theorem land_addrmask_or (f fl : Nat) (hf : f < 2 ^ 40)
    (hfl : fl &&& 0x000ffffffffff000 = 0) :
    (f * 4096 ||| fl) &&& 0x000ffffffffff000 = f * 4096 := by
  rw [Nat.and_distrib_right, hfl, Nat.or_zero, land_addrmask_self f hf]

theorem entry_flags_present (e : Nat) :
    flags_contains (Entry.flags e) PRESENT = (e % 2 == 1) := by
  unfold flags_contains Entry.flags PRESENT
  rw [Nat.land_assoc, show ALL_FLAGS &&& 1 <<< 0 = 1 by decide,
    show (1 <<< 0 : Nat) = 1 by decide, Nat.and_one_is_mod]

theorem entry_flags_huge (e : Nat) :
    flags_contains (Entry.flags e) HUGE_PAGE = (e &&& 128 == 128) := by
  unfold flags_contains Entry.flags HUGE_PAGE
  rw [Nat.land_assoc, show ALL_FLAGS &&& 1 <<< 7 = 128 by decide,
    show (1 <<< 7 : Nat) = 128 by decide]

theorem or_mod_two (f fl : Nat) : (f * 4096 ||| fl) % 2 = fl % 2 := by
  rw [← Nat.and_one_is_mod, ← Nat.and_one_is_mod, Nat.and_distrib_right,
    Nat.and_one_is_mod, show f * 4096 % 2 = 0 by omega, Nat.zero_or]

theorem or_huge_bit (f fl : Nat) : (f * 4096 ||| fl) &&& 128 = fl &&& 128 := by
  rw [Nat.and_distrib_right]
  have h : f * 4096 &&& 128 = 0 := by
    apply Nat.eq_of_testBit_eq
    intro i
    rw [Nat.zero_testBit, Nat.testBit_land, testBit_mul_4096,
      show (128 : Nat) = 2 ^ 7 by decide, Nat.testBit_two_pow]
    rcases Nat.lt_or_ge i 12 with h12 | h12
    · simp [show ¬(i ≥ 12) by omega]
    · simp [show ¬(7 = i) by omega]
  rw [h, Nat.zero_or]

theorem pointed_frame_or (f fl : Nat) (hf : f < 2 ^ 40)
    (hfl : fl &&& 0x000ffffffffff000 = 0) (hp : fl % 2 = 1) :
    Entry.pointed_frame (f * 4096 ||| fl) = some ⟨f⟩ := by
  unfold Entry.pointed_frame
  rw [entry_flags_present, or_mod_two, hp]
  simp only [beq_self_eq_true, if_true]
  unfold Frame.containing_address PAGE_SIZE
  rw [land_addrmask_or f fl hf hfl, Nat.mul_div_cancel f (by norm_num)]

theorem pointed_frame_not_present (e : Nat) (h : e % 2 = 0) :
    Entry.pointed_frame e = none := by
  unfold Entry.pointed_frame
  rw [entry_flags_present, h]
  simp

/-- A freshly installed table pointer (frame f, flags PRESENT|WRITEABLE)
is followed by next_table. -/
theorem entry_next_table_ptr (f : Nat) (hf : f < 2 ^ 40) :
    entry_next (f * 4096 ||| 3) = some f := by
  unfold entry_next
  rw [entry_flags_present, entry_flags_huge, or_mod_two, or_huge_bit]
  simp only [show (3 : Nat) % 2 = 1 by decide, show (3 : Nat) &&& 128 = 0 by decide]
  rw [pointed_frame_or f 3 hf (by decide) (by decide)]
  simp

theorem entry_next_not_present (e : Nat) (h : e % 2 = 0) :
    entry_next e = none := by
  unfold entry_next
  rw [entry_flags_present, h]
  simp

theorem entry_next_huge (e : Nat)
    (h : flags_contains (Entry.flags e) HUGE_PAGE = true) :
    entry_next e = none := by
  unfold entry_next
  rw [h]
  simp

/-- Entry::set succeeds for every frame number below 2^40 and stores
frame_address | flags, with no implicit PRESENT bit. -/
theorem entry_set_ok (frame : Frame) (flags : Nat) (h : frame.number < 2 ^ 40) :
    Entry.set frame flags = .ok (frame.number * 4096 ||| flags) := by
  unfold Entry.set Frame.start_address PAGE_SIZE
  rw [show frame.number * 4096 % 2 ^ 64 = frame.number * 4096 by omega,
    land_highmask_eq_zero frame.number h]
  simp

/-! ### next_table_create execution lemmas -/

theorem ntc_existing {m : Machine} {tf i c : Nat} (alloc : List Nat)
    (h : next_table m tf i = some c) :
    next_table_create m tf i alloc = .ok (m, c, alloc) := by
  unfold next_table_create
  rw [h]

theorem ntc_fresh {m : Machine} {tf i : Nat} (f : Nat) (rest : List Nat)
    (h : next_table m tf i = none) (hf : f < 2 ^ 40) :
    next_table_create m tf i (f :: rest) =
      .ok (zeroTable (writeEntry m tf i (f * 4096 ||| 3)) f, f, rest) := by
  have hs : Entry.set ⟨f⟩ (PRESENT ||| WRITEABLE) = .ok (f * 4096 ||| 3) := by
    rw [entry_set_ok ⟨f⟩ (PRESENT ||| WRITEABLE) hf,
      show (PRESENT ||| WRITEABLE : Nat) = 3 by decide]
  simp only [next_table_create, h, hs]

/-! ### Canonical address arithmetic -/

theorem canonical_offset {n k : Nat} (hn : n < 2 ^ 52) (hk : k < 4096)
    (h : is_canonical (n * 4096) = true) :
    is_canonical (n * 4096 + k) = true := by
  unfold is_canonical at *
  simp only [Bool.or_eq_true, Bool.and_eq_true, decide_eq_true_eq] at *
  omega

theorem containing_address_offset {n k : Nat} (hn : n < 2 ^ 52) (hk : k < 4096)
    (h : is_canonical (n * 4096) = true) :
    Page.containing_address (n * 4096 + k) = .ok ⟨n⟩ := by
  unfold Page.containing_address PAGE_SIZE
  rw [canonical_offset hn hk h]
  simp only [if_true]
  rw [show (n * 4096 + k) / 4096 = n by omega]

/-! ### Further helper lemmas -/

theorem page_eta (p : Page) : (⟨p.number⟩ : Page) = p := rfl

theorem or_one_mod_two (x : Nat) : (x ||| 1) % 2 = 1 := by
  rw [← Nat.and_one_is_mod, Nat.and_distrib_right]
  rcases Nat.mod_two_eq_zero_or_one x with h | h <;>
    rw [Nat.and_one_is_mod, h] <;> decide

theorem pointed_frame_present (e : Nat) (h : e % 2 = 1) :
    Entry.pointed_frame e =
      some (Frame.containing_address (e &&& 0x000ffffffffff000)) := by
  unfold Entry.pointed_frame
  rw [entry_flags_present, h]
  simp

theorem pointed_frame_lt {e : Nat} {fr : Frame}
    (h : Entry.pointed_frame e = some fr) : fr.number < 2 ^ 40 := by
  unfold Entry.pointed_frame at h
  split at h
  · injection h with h1
    subst h1
    unfold Frame.containing_address PAGE_SIZE
    show (e &&& 0x000ffffffffff000) / 4096 < 2 ^ 40
    have h2 : e &&& 0x000ffffffffff000 ≤ 0x000ffffffffff000 := Nat.and_le_right
    omega
  · simp at h

theorem containing_mul {n : Nat} (hn : n < 2 ^ 52)
    (hc : is_canonical (n * 4096) = true) :
    Page.containing_address (n * 4096) = .ok ⟨n⟩ := by
  unfold Page.containing_address PAGE_SIZE
  rw [hc]
  simp only [if_true]
  rw [show n * 4096 / 4096 = n by omega]

/-- A fully mapped chain makes translate_page return the pointed frame of
the P1 entry through the main walk; the huge_page fallback never runs. -/
theorem translate_page_of_chain (M : Machine) (page : Page) (fr : Frame)
    (q3 q2 q1 : Nat)
    (h4 : next_table M M.root page.p4_index = some q3)
    (h3 : next_table M q3 page.p3_index = some q2)
    (h2 : next_table M q2 page.p2_index = some q1)
    (h1 : Entry.pointed_frame (M.mem q1 page.p1_index) = some fr) :
    translate_page M page = .ok (some fr) := by
  simp only [translate_page, h4, h3, h2, h1, Option.some_bind]

/-- A fully mapped chain makes translate return the frame start address
plus the in-page offset. -/
theorem translate_mapped (M : Machine) (page : Page) (fr : Frame)
    (q3 q2 q1 k va : Nat)
    (hnum : page.number < 2 ^ 52)
    (hc : is_canonical (page.number * 4096) = true)
    (hk : k < 4096)
    (hva : va = page.number * 4096 + k)
    (h4 : next_table M M.root page.p4_index = some q3)
    (h3 : next_table M q3 page.p3_index = some q2)
    (h2 : next_table M q2 page.p2_index = some q1)
    (h1 : Entry.pointed_frame (M.mem q1 page.p1_index) = some fr) :
    translate M va = .ok (some ((fr.number * 4096 + k) % 2 ^ 64)) := by
  subst hva
  have hca : Page.containing_address (page.number * 4096 + k) = .ok page := by
    rw [containing_address_offset hnum hk hc, page_eta]
  simp only [translate, hca, translate_page_of_chain M page fr q3 q2 q1 h4 h3 h2 h1,
    PAGE_SIZE]
  rw [show (page.number * 4096 + k) % 4096 = k by omega]

/-- Claim C7: for every valid canonical address a, containing_address
floors to a page boundary: start_address ≤ a < start_address + 4096, and
start_address inverts containing_address on page-aligned addresses. -/
theorem C7_containing_address_floor (a : Nat) (h : is_canonical a = true) :
    ∃ p, Page.containing_address a = .ok p ∧
      Page.start_address p ≤ a ∧ a < Page.start_address p + 4096 ∧
      (a % 4096 = 0 → Page.start_address p = a) := by
  have ha : a < 2 ^ 64 := by
    unfold is_canonical at h
    simp only [Bool.or_eq_true, Bool.and_eq_true, decide_eq_true_eq] at h
    omega
  have hs : Page.start_address ⟨a / 4096⟩ = a / 4096 * 4096 := by
    unfold Page.start_address PAGE_SIZE
    show a / 4096 * 4096 % 2 ^ 64 = a / 4096 * 4096
    omega
  refine ⟨⟨a / 4096⟩, ?_, ?_, ?_, ?_⟩
  · simp [Page.containing_address, PAGE_SIZE, h]
  · rw [hs]; omega
  · rw [hs]; omega
  · intro hal; rw [hs]; omega

/-- Claim C7 witness at the concrete canonical address 8195. -/
theorem C7_containing_address_floor_witness :
    is_canonical 8195 = true ∧
    ∃ p, Page.containing_address 8195 = .ok p ∧
      Page.start_address p ≤ 8195 ∧ 8195 < Page.start_address p + 4096 ∧
      (8195 % 4096 = 0 → Page.start_address p = 8195) :=
  ⟨by decide, C7_containing_address_floor 8195 (by decide)⟩

/-- Claim C10: Entry::set never panics for a frame numbered below 2^40:
the frame start address is number * 4096, so its low 12 bits are zero and
the asserted mask check can only see bits at or above 52. -/
theorem C10_set_no_panic (frame : Frame) (flags : Nat)
    (h : frame.number < 2 ^ 40) :
    Entry.set frame flags = .ok (frame.number * 4096 ||| flags) :=
  entry_set_ok frame flags h

/-- Claim C10 witness at frame 7 with flags DIRTY|WRITEABLE. -/
theorem C10_set_no_panic_witness :
    (7 : Nat) < 2 ^ 40 ∧ Entry.set ⟨7⟩ 66 = .ok (7 * 4096 ||| 66) :=
  ⟨by decide, C10_set_no_panic ⟨7⟩ 66 (by decide)⟩

/-- Claim C4 counterexample: Entry::set does not force PRESENT on.
Setting frame 5 with the empty flag set stores 0x5000 = 20480, whose
flags do not contain PRESENT and whose pointed_frame is none. -/
theorem C4_set_counterexample :
    Entry.set ⟨5⟩ 0 = .ok 20480 ∧
    flags_contains (Entry.flags 20480) PRESENT = false ∧
    Entry.pointed_frame 20480 = none := by
  decide

/-- Claim C4 (amended): Entry::set stores frame_address | flags without
forcing PRESENT; the stored entry's flags contain PRESENT exactly when
the given flags do (PRESENT is forced by map_to, which passes
flags | PRESENT), and pointed_frame recovers the frame exactly when the
flags contain PRESENT. -/
theorem C4_set_stores_or (frame : Frame) (flags : Nat)
    (hn : frame.number < 2 ^ 40)
    (hfl : flags &&& 0x000ffffffffff000 = 0) :
    Entry.set frame flags = .ok (frame.number * 4096 ||| flags) ∧
    flags_contains (Entry.flags (frame.number * 4096 ||| flags)) PRESENT =
      (flags % 2 == 1) ∧
    Entry.pointed_frame (frame.number * 4096 ||| flags) =
      (if flags % 2 = 1 then some frame else none) := by
  refine ⟨entry_set_ok frame flags hn, ?_, ?_⟩
  · rw [entry_flags_present, or_mod_two]
  · by_cases hp : flags % 2 = 1
    · rw [if_pos hp]
      exact pointed_frame_or frame.number flags hn hfl hp
    · rw [if_neg hp]
      apply pointed_frame_not_present
      rw [or_mod_two]
      omega

/-- Claim C4 (amended) witness at frame 6 with flags WRITEABLE|PRESENT. -/
theorem C4_set_stores_or_witness :
    (6 : Nat) < 2 ^ 40 ∧ (3 : Nat) &&& 0x000ffffffffff000 = 0 ∧
    (Entry.set ⟨6⟩ 3 = .ok (6 * 4096 ||| 3) ∧
     flags_contains (Entry.flags (6 * 4096 ||| 3)) PRESENT = ((3 : Nat) % 2 == 1) ∧
     Entry.pointed_frame (6 * 4096 ||| 3) =
       (if (3 : Nat) % 2 = 1 then some ⟨6⟩ else none)) :=
  ⟨by decide, by decide, C4_set_stores_or ⟨6⟩ 3 (by decide) (by decide)⟩

theorem p4_index_eq (p : Page) : Page.p4_index p = p.number / 2 ^ 27 % 2 ^ 9 := by
  unfold Page.p4_index
  rw [Nat.shiftRight_eq_div_pow, show (0o777 : Nat) = 2 ^ 9 - 1 by decide,
    Nat.and_pow_two_sub_one_eq_mod]

theorem p3_index_eq (p : Page) : Page.p3_index p = p.number / 2 ^ 18 % 2 ^ 9 := by
  unfold Page.p3_index
  rw [Nat.shiftRight_eq_div_pow, show (0o777 : Nat) = 2 ^ 9 - 1 by decide,
    Nat.and_pow_two_sub_one_eq_mod]

theorem p2_index_eq (p : Page) : Page.p2_index p = p.number / 2 ^ 9 % 2 ^ 9 := by
  unfold Page.p2_index
  rw [Nat.shiftRight_eq_div_pow, show (0o777 : Nat) = 2 ^ 9 - 1 by decide,
    Nat.and_pow_two_sub_one_eq_mod]

theorem p1_index_eq (p : Page) : Page.p1_index p = p.number / 2 ^ 0 % 2 ^ 9 := by
  unfold Page.p1_index
  rw [Nat.shiftRight_eq_div_pow, show (0o777 : Nat) = 2 ^ 9 - 1 by decide,
    Nat.and_pow_two_sub_one_eq_mod]

/-- Claim C3 (evaluation at the failing input): at a canonical address
whose P4, P3 and P2 entries are present non-huge table pointers and whose
P1 entry is unused, translate does not return an empty optional: it
panics, because the 2 MiB arm of the huge_page fallback tests
pointed_frame without testing the HUGE_PAGE flag, takes the present P2
table pointer (child frame 3) for a 2 MiB mapping, and fails the 2 MiB
alignment assert (3 % 512 != 0). -/
theorem C3_translate_unused_p1_panics :
    next_table (chainMachine 0) (chainMachine 0).root (Page.p4_index ⟨0⟩) = some 1 ∧
    next_table (chainMachine 0) 1 (Page.p3_index ⟨0⟩) = some 2 ∧
    next_table (chainMachine 0) 2 (Page.p2_index ⟨0⟩) = some 3 ∧
    Entry.is_unused ((chainMachine 0).mem 3 (Page.p1_index ⟨0⟩)) = true ∧
    is_canonical 0 = true ∧
    translate (chainMachine 0) 0 = .panicked := by
  decide

/-- Claim C2 (evaluation at the failing input): from the empty machine,
map_to on page 0 to frame 5 succeeds and translate then returns
5 * 4096 = 20480; unmap on the same page succeeds; but the subsequent
translate of the page start panics (it does not return none): the main
walk finds the unused P1 entry, the fallback then reads the present
non-huge P2 entry without checking HUGE_PAGE, and the 2 MiB alignment
assert fails on the P1 table frame 3. -/
theorem C2_roundtrip_translate_panics :
    ((map_to m0 ⟨0⟩ ⟨5⟩ 0 [1, 2, 3]).bind
        (fun p => translate p.1 0)) = .ok (some 20480) ∧
    ((map_to m0 ⟨0⟩ ⟨5⟩ 0 [1, 2, 3]).bind
        (fun p => unmap p.1 ⟨0⟩ p.2)).isOk = true ∧
    ((map_to m0 ⟨0⟩ ⟨5⟩ 0 [1, 2, 3]).bind
        (fun p => (unmap p.1 ⟨0⟩ p.2).bind (fun q => translate q.1 0))) =
      .panicked := by
  decide

/-- Claim C9: unmap of a mapped non-huge page returns exactly the input
machine with the page's P1 entry overwritten by the all-zero unused
pattern (writeEntry changes that one entry and nothing else), and the
allocator is returned unchanged because deallocate_frame is never
invoked. -/
theorem C9_unmap_only_clears_p1 (m : Machine) (page : Page)
    (alloc : List Nat) (p3f p2f p1f : Nat)
    (hnum : page.number < 2 ^ 52)
    (hc : is_canonical (page.number * 4096) = true)
    (h4 : next_table m m.root page.p4_index = some p3f)
    (h3 : next_table m p3f page.p3_index = some p2f)
    (h2 : next_table m p2f page.p2_index = some p1f)
    (h1 : m.mem p1f page.p1_index % 2 = 1) :
    unmap m page alloc = .ok (writeEntry m p1f page.p1_index 0, alloc) := by
  have hpf := pointed_frame_present (m.mem p1f page.p1_index) h1
  have hs : Page.start_address page = page.number * 4096 + 0 := by
    unfold Page.start_address PAGE_SIZE
    omega
  have htr := translate_mapped m page _ p3f p2f p1f 0 (Page.start_address page)
    hnum hc (by omega) hs h4 h3 h2 hpf
  simp only [unmap, htr, h4, h3, h2, hpf, Option.some_bind]

/-- Claim C9 witness on the concrete mapped chain machine. -/
theorem C9_unmap_only_clears_p1_witness :
    (Page.mk 0).number < 2 ^ 52 ∧
    is_canonical ((Page.mk 0).number * 4096) = true ∧
    next_table (chainMachine 0x5001) (chainMachine 0x5001).root
      (Page.p4_index ⟨0⟩) = some 1 ∧
    next_table (chainMachine 0x5001) 1 (Page.p3_index ⟨0⟩) = some 2 ∧
    next_table (chainMachine 0x5001) 2 (Page.p2_index ⟨0⟩) = some 3 ∧
    (chainMachine 0x5001).mem 3 (Page.p1_index ⟨0⟩) % 2 = 1 ∧
    unmap (chainMachine 0x5001) ⟨0⟩ [9] =
      .ok (writeEntry (chainMachine 0x5001) 3 (Page.p1_index ⟨0⟩) 0, [9]) :=
  ⟨by decide, by decide, by decide, by decide, by decide, by decide,
    C9_unmap_only_clears_p1 (chainMachine 0x5001) ⟨0⟩ [9] 1 2 3 (by decide)
      (by decide) (by decide) (by decide) (by decide) (by decide)⟩

/-- Claim C6: when the P4..P2 chain for a page already exists, map_to
panics exactly when the page's P1 slot is not unused; when the slot is
unused (and the frame is in range) it never panics, so an existing entry
is never silently overwritten. -/
theorem C6_double_map_panics (m : Machine) (page : Page) (frame : Frame)
    (flags : Nat) (alloc : List Nat) (p3f p2f p1f : Nat)
    (h4 : next_table m m.root page.p4_index = some p3f)
    (h3 : next_table m p3f page.p3_index = some p2f)
    (h2 : next_table m p2f page.p2_index = some p1f)
    (hframe : frame.number < 2 ^ 40) :
    (map_to m page frame flags alloc = .panicked ↔
      Entry.is_unused (m.mem p1f page.p1_index) = false) := by
  have hset := entry_set_ok frame (flags ||| PRESENT) hframe
  cases hu : Entry.is_unused (m.mem p1f page.p1_index) with
  | false =>
    simp only [map_to, ntc_existing alloc h4, ntc_existing alloc h3,
      ntc_existing alloc h2, hu]
    simp
  | true =>
    simp only [map_to, ntc_existing alloc h4, ntc_existing alloc h3,
      ntc_existing alloc h2, hu, hset]
    simp

/-- Claim C6 witness: on the chain machine whose P1 slot for page 0 holds
the live entry 0x5001, map_to panics. -/
theorem C6_double_map_panics_witness :
    next_table (chainMachine 0x5001) (chainMachine 0x5001).root
      (Page.p4_index ⟨0⟩) = some 1 ∧
    next_table (chainMachine 0x5001) 1 (Page.p3_index ⟨0⟩) = some 2 ∧
    next_table (chainMachine 0x5001) 2 (Page.p2_index ⟨0⟩) = some 3 ∧
    (Frame.mk 5).number < 2 ^ 40 ∧
    Entry.is_unused ((chainMachine 0x5001).mem 3 (Page.p1_index ⟨0⟩)) = false ∧
    map_to (chainMachine 0x5001) ⟨0⟩ ⟨5⟩ 0 [] = .panicked :=
  ⟨by decide, by decide, by decide, by decide, by decide,
    (C6_double_map_panics (chainMachine 0x5001) ⟨0⟩ ⟨5⟩ 0 [] 1 2 3
      (by decide) (by decide) (by decide) (by decide)).mpr (by decide)⟩

/-- Claim C5: with the P4 entry a present non-huge table pointer and the
P3 entry present, huge, pointing at a frame number F that is a multiple
of 512 * 512, translate of any canonical address in that 1 GiB window
returns F * 4096 plus the window-local offset of the address. -/
theorem C5_huge_1gib_translate (m : Machine) (va p3f F : Nat)
    (hc : is_canonical va = true)
    (h4 : next_table m m.root (Page.p4_index ⟨va / 4096⟩) = some p3f)
    (hp : Entry.pointed_frame (m.mem p3f (Page.p3_index ⟨va / 4096⟩)) =
      some ⟨F⟩)
    (hh : flags_contains (Entry.flags (m.mem p3f (Page.p3_index ⟨va / 4096⟩)))
      HUGE_PAGE = true)
    (ha : F % (ENTRY_COUNT * ENTRY_COUNT) = 0) :
    translate m va = .ok (some (F * 4096 + va % 2 ^ 30)) := by
  have hva : va < 2 ^ 64 := by
    unfold is_canonical at hc
    simp only [Bool.or_eq_true, Bool.and_eq_true, decide_eq_true_eq] at hc
    omega
  have hF : F < 2 ^ 40 := pointed_frame_lt hp
  have hca : Page.containing_address va = .ok ⟨va / 4096⟩ := by
    unfold Page.containing_address PAGE_SIZE
    rw [hc]
    simp
  have hmain : next_table m p3f (Page.p3_index ⟨va / 4096⟩) = none := by
    unfold next_table
    exact entry_next_huge _ hh
  have hhuge : translate_huge m ⟨va / 4096⟩ =
      .ok (some ⟨F + Page.p2_index ⟨va / 4096⟩ * ENTRY_COUNT +
        Page.p1_index ⟨va / 4096⟩⟩) := by
    simp only [translate_huge, h4, hp, hh, if_true, ha]
  have htp : translate_page m ⟨va / 4096⟩ =
      .ok (some ⟨F + Page.p2_index ⟨va / 4096⟩ * ENTRY_COUNT +
        Page.p1_index ⟨va / 4096⟩⟩) := by
    simp only [translate_page, h4, hmain, Option.some_bind, Option.none_bind,
      hhuge]
  simp only [translate, hca, htp, PAGE_SIZE]
  rw [p2_index_eq, p1_index_eq, show ENTRY_COUNT = 512 from rfl]
  dsimp only
  congr 1
  congr 1
  omega

/-- Claim C5 witness: a huge 1 GiB mapping at frame 262144 translates
address 8197 to 262144 * 4096 + 8197. -/
theorem C5_huge_1gib_translate_witness :
    is_canonical 8197 = true ∧
    next_table mC5 mC5.root (Page.p4_index ⟨8197 / 4096⟩) = some 1 ∧
    Entry.pointed_frame (mC5.mem 1 (Page.p3_index ⟨8197 / 4096⟩)) =
      some ⟨262144⟩ ∧
    flags_contains (Entry.flags (mC5.mem 1 (Page.p3_index ⟨8197 / 4096⟩)))
      HUGE_PAGE = true ∧
    (262144 : Nat) % (ENTRY_COUNT * ENTRY_COUNT) = 0 ∧
    translate mC5 8197 = .ok (some (262144 * 4096 + 8197 % 2 ^ 30)) :=
  ⟨by decide, by decide, by decide, by decide, by decide,
    C5_huge_1gib_translate mC5 8197 1 262144 (by decide) (by decide)
      (by decide) (by decide) (by decide)⟩

theorem next_table_zero (M : Machine) (tf i : Nat) :
    next_table (zeroTable M tf) tf i = none := by
  unfold next_table
  rw [zeroTable_mem_self]
  exact entry_next_not_present 0 rfl

theorem is_unused_zero (M : Machine) (tf j : Nat) :
    Entry.is_unused ((zeroTable M tf).mem tf j) = true := by
  rw [zeroTable_mem_self]
  rfl

theorem walk_path_eq_fresh (m : Machine) (page : Page) (a1 a2 a3 : Nat)
    (h4 : next_table m m.root page.p4_index = none) :
    walk_path m page a1 a2 a3 = (a1, a2, a3) := by
  simp only [walk_path, h4]

theorem walk_path_eq_create2 (m : Machine) (page : Page) (a1 a2 a3 c3 : Nat)
    (h4 : next_table m m.root page.p4_index = some c3)
    (h3 : next_table m c3 page.p3_index = none) :
    walk_path m page a1 a2 a3 = (c3, a1, a2) := by
  simp only [walk_path, h4, h3]

theorem walk_path_eq_create1 (m : Machine) (page : Page) (a1 a2 a3 c3 c2 : Nat)
    (h4 : next_table m m.root page.p4_index = some c3)
    (h3 : next_table m c3 page.p3_index = some c2)
    (h2 : next_table m c2 page.p2_index = none) :
    walk_path m page a1 a2 a3 = (c3, c2, a1) := by
  simp only [walk_path, h4, h3, h2]

theorem walk_path_eq_existing (m : Machine) (page : Page) (a1 a2 a3 c3 c2 c1 : Nat)
    (h4 : next_table m m.root page.p4_index = some c3)
    (h3 : next_table m c3 page.p3_index = some c2)
    (h2 : next_table m c2 page.p2_index = some c1) :
    walk_path m page a1 a2 a3 = (c3, c2, c1) := by
  simp only [walk_path, h4, h3, h2]

/-- map_to then translate, in the case where the P4 entry for the page is
absent, so the P3, P2 and P1 tables are all freshly created from the
allocator frames a1, a2, a3. -/
theorem mt_fresh_all (m : Machine) (page : Page) (frame : Frame)
    (flags a1 a2 a3 : Nat) (rest : List Nat) (k : Nat)
    (e4 : next_table m m.root page.p4_index = none)
    (hd1 : m.root ≠ a1) (hd2 : m.root ≠ a2) (hd3 : m.root ≠ a3)
    (hd4 : a1 ≠ a2) (hd5 : a1 ≠ a3) (hd6 : a2 ≠ a3)
    (ha1 : a1 < 2 ^ 40) (ha2 : a2 < 2 ^ 40) (ha3 : a3 < 2 ^ 40)
    (hframe : frame.number < 2 ^ 40)
    (hflags : flags &&& 0x000ffffffffff000 = 0)
    (hnum : page.number < 2 ^ 52)
    (hc : is_canonical (page.number * 4096) = true)
    (hk : k < 4096) :
    (map_to m page frame flags (a1 :: a2 :: a3 :: rest)).bind
      (fun p => translate p.1 (Page.start_address page + k)) =
      .ok (some (Frame.start_address frame + k)) := by
  have hset := entry_set_ok frame (flags ||| PRESENT) hframe
  have hfpar : (flags ||| PRESENT) % 2 = 1 := by
    rw [show (PRESENT : Nat) = 1 by decide]
    exact or_one_mod_two flags
  have hfaddr : (flags ||| PRESENT) &&& 0x000ffffffffff000 = 0 := by
    rw [Nat.and_distrib_right, hflags,
      show (PRESENT &&& 0x000ffffffffff000 : Nat) = 0 by decide, Nat.or_zero]
  have hpf := pointed_frame_or frame.number (flags ||| PRESENT) hframe hfaddr hfpar
  have hstart : Page.start_address page + k = page.number * 4096 + k := by
    unfold Page.start_address PAGE_SIZE
    omega
  have n1 := ntc_fresh a1 (a2 :: a3 :: rest) e4 ha1
  have n2 := ntc_fresh a2 (a3 :: rest) (next_table_zero (writeEntry m m.root page.p4_index (a1 * 4096 ||| 3)) a1 page.p3_index) ha2
  have n3 := ntc_fresh a3 rest (next_table_zero (writeEntry (zeroTable (writeEntry m m.root page.p4_index (a1 * 4096 ||| 3)) a1) a1 page.p3_index (a2 * 4096 ||| 3)) a2 page.p2_index) ha3
  have c4 : next_table (writeEntry (zeroTable (writeEntry (zeroTable (writeEntry (zeroTable (writeEntry m m.root page.p4_index (a1 * 4096 ||| 3)) a1) a1 page.p3_index (a2 * 4096 ||| 3)) a2) a2 page.p2_index (a3 * 4096 ||| 3)) a3) a3 page.p1_index (frame.number * 4096 ||| (flags ||| PRESENT))) (writeEntry (zeroTable (writeEntry (zeroTable (writeEntry (zeroTable (writeEntry m m.root page.p4_index (a1 * 4096 ||| 3)) a1) a1 page.p3_index (a2 * 4096 ||| 3)) a2) a2 page.p2_index (a3 * 4096 ||| 3)) a3) a3 page.p1_index (frame.number * 4096 ||| (flags ||| PRESENT))).root page.p4_index = some a1 := by
    rw [writeEntry_root, zeroTable_root, writeEntry_root, zeroTable_root,
      writeEntry_root, zeroTable_root, writeEntry_root]
    unfold next_table
    rw [writeEntry_mem_ne _ _ _ _ hd3, zeroTable_mem_ne _ _ hd3,
      writeEntry_mem_ne _ _ _ _ hd2, zeroTable_mem_ne _ _ hd2,
      writeEntry_mem_ne _ _ _ _ hd1, zeroTable_mem_ne _ _ hd1,
      writeEntry_mem_self]
    exact entry_next_table_ptr a1 ha1
  have c3 : next_table (writeEntry (zeroTable (writeEntry (zeroTable (writeEntry (zeroTable (writeEntry m m.root page.p4_index (a1 * 4096 ||| 3)) a1) a1 page.p3_index (a2 * 4096 ||| 3)) a2) a2 page.p2_index (a3 * 4096 ||| 3)) a3) a3 page.p1_index (frame.number * 4096 ||| (flags ||| PRESENT))) a1 page.p3_index = some a2 := by
    unfold next_table
    rw [writeEntry_mem_ne _ _ _ _ hd5, zeroTable_mem_ne _ _ hd5,
      writeEntry_mem_ne _ _ _ _ hd4, zeroTable_mem_ne _ _ hd4,
      writeEntry_mem_self]
    exact entry_next_table_ptr a2 ha2
  have c2 : next_table (writeEntry (zeroTable (writeEntry (zeroTable (writeEntry (zeroTable (writeEntry m m.root page.p4_index (a1 * 4096 ||| 3)) a1) a1 page.p3_index (a2 * 4096 ||| 3)) a2) a2 page.p2_index (a3 * 4096 ||| 3)) a3) a3 page.p1_index (frame.number * 4096 ||| (flags ||| PRESENT))) a2 page.p2_index = some a3 := by
    unfold next_table
    rw [writeEntry_mem_ne _ _ _ _ hd6, zeroTable_mem_ne _ _ hd6,
      writeEntry_mem_self]
    exact entry_next_table_ptr a3 ha3
  have c1 : Entry.pointed_frame ((writeEntry (zeroTable (writeEntry (zeroTable (writeEntry (zeroTable (writeEntry m m.root page.p4_index (a1 * 4096 ||| 3)) a1) a1 page.p3_index (a2 * 4096 ||| 3)) a2) a2 page.p2_index (a3 * 4096 ||| 3)) a3) a3 page.p1_index (frame.number * 4096 ||| (flags ||| PRESENT))).mem a3 page.p1_index) = some frame := by
    rw [writeEntry_mem_self]
    exact hpf
  have htr := translate_mapped (writeEntry (zeroTable (writeEntry (zeroTable (writeEntry (zeroTable (writeEntry m m.root page.p4_index (a1 * 4096 ||| 3)) a1) a1 page.p3_index (a2 * 4096 ||| 3)) a2) a2 page.p2_index (a3 * 4096 ||| 3)) a3) a3 page.p1_index (frame.number * 4096 ||| (flags ||| PRESENT))) page frame a1 a2 a3 k
    (page.number * 4096 + k) hnum hc hk rfl c4 c3 c2 c1
  simp only [map_to, n1, n2, n3]
  rw [is_unused_zero, if_pos rfl, hset]
  show translate (writeEntry (zeroTable (writeEntry (zeroTable (writeEntry (zeroTable (writeEntry m m.root page.p4_index (a1 * 4096 ||| 3)) a1) a1 page.p3_index (a2 * 4096 ||| 3)) a2) a2 page.p2_index (a3 * 4096 ||| 3)) a3) a3 page.p1_index (frame.number * 4096 ||| (flags ||| PRESENT))) (Page.start_address page + k) =
    .ok (some (Frame.start_address frame + k))
  rw [hstart, htr]
  unfold Frame.start_address PAGE_SIZE
  rw [show (frame.number * 4096 + k) % 2 ^ 64 =
    frame.number * 4096 % 2 ^ 64 + k by omega]

/-- map_to then translate, in the case where the P3 table exists but the
P2 and P1 tables are freshly created from the allocator frames a1, a2. -/
theorem mt_create2 (m : Machine) (page : Page) (frame : Frame)
    (flags p3f a1 a2 : Nat) (rest : List Nat) (k : Nat)
    (e4 : next_table m m.root page.p4_index = some p3f)
    (e3 : next_table m p3f page.p3_index = none)
    (hd1 : m.root ≠ p3f) (hd2 : m.root ≠ a1) (hd3 : m.root ≠ a2)
    (hd4 : p3f ≠ a1) (hd5 : p3f ≠ a2) (hd6 : a1 ≠ a2)
    (ha1 : a1 < 2 ^ 40) (ha2 : a2 < 2 ^ 40)
    (hframe : frame.number < 2 ^ 40)
    (hflags : flags &&& 0x000ffffffffff000 = 0)
    (hnum : page.number < 2 ^ 52)
    (hc : is_canonical (page.number * 4096) = true)
    (hk : k < 4096) :
    (map_to m page frame flags (a1 :: a2 :: rest)).bind
      (fun p => translate p.1 (Page.start_address page + k)) =
      .ok (some (Frame.start_address frame + k)) := by
  have hset := entry_set_ok frame (flags ||| PRESENT) hframe
  have hfpar : (flags ||| PRESENT) % 2 = 1 := by
    rw [show (PRESENT : Nat) = 1 by decide]
    exact or_one_mod_two flags
  have hfaddr : (flags ||| PRESENT) &&& 0x000ffffffffff000 = 0 := by
    rw [Nat.and_distrib_right, hflags,
      show (PRESENT &&& 0x000ffffffffff000 : Nat) = 0 by decide, Nat.or_zero]
  have hpf := pointed_frame_or frame.number (flags ||| PRESENT) hframe hfaddr hfpar
  have hstart : Page.start_address page + k = page.number * 4096 + k := by
    unfold Page.start_address PAGE_SIZE
    omega
  have n1 := ntc_existing (a1 :: a2 :: rest) e4
  have n2 := ntc_fresh a1 (a2 :: rest) e3 ha1
  have n3 := ntc_fresh a2 rest (next_table_zero (writeEntry m p3f page.p3_index (a1 * 4096 ||| 3)) a1 page.p2_index) ha2
  have c4 : next_table (writeEntry (zeroTable (writeEntry (zeroTable (writeEntry m p3f page.p3_index (a1 * 4096 ||| 3)) a1) a1 page.p2_index (a2 * 4096 ||| 3)) a2) a2 page.p1_index (frame.number * 4096 ||| (flags ||| PRESENT))) (writeEntry (zeroTable (writeEntry (zeroTable (writeEntry m p3f page.p3_index (a1 * 4096 ||| 3)) a1) a1 page.p2_index (a2 * 4096 ||| 3)) a2) a2 page.p1_index (frame.number * 4096 ||| (flags ||| PRESENT))).root page.p4_index = some p3f := by
    rw [writeEntry_root, zeroTable_root, writeEntry_root, zeroTable_root,
      writeEntry_root]
    unfold next_table
    rw [writeEntry_mem_ne _ _ _ _ hd3, zeroTable_mem_ne _ _ hd3,
      writeEntry_mem_ne _ _ _ _ hd2, zeroTable_mem_ne _ _ hd2,
      writeEntry_mem_ne _ _ _ _ hd1]
    exact e4
  have c3 : next_table (writeEntry (zeroTable (writeEntry (zeroTable (writeEntry m p3f page.p3_index (a1 * 4096 ||| 3)) a1) a1 page.p2_index (a2 * 4096 ||| 3)) a2) a2 page.p1_index (frame.number * 4096 ||| (flags ||| PRESENT))) p3f page.p3_index = some a1 := by
    unfold next_table
    rw [writeEntry_mem_ne _ _ _ _ hd5, zeroTable_mem_ne _ _ hd5,
      writeEntry_mem_ne _ _ _ _ hd4, zeroTable_mem_ne _ _ hd4,
      writeEntry_mem_self]
    exact entry_next_table_ptr a1 ha1
  have c2 : next_table (writeEntry (zeroTable (writeEntry (zeroTable (writeEntry m p3f page.p3_index (a1 * 4096 ||| 3)) a1) a1 page.p2_index (a2 * 4096 ||| 3)) a2) a2 page.p1_index (frame.number * 4096 ||| (flags ||| PRESENT))) a1 page.p2_index = some a2 := by
    unfold next_table
    rw [writeEntry_mem_ne _ _ _ _ hd6, zeroTable_mem_ne _ _ hd6,
      writeEntry_mem_self]
    exact entry_next_table_ptr a2 ha2
  have c1 : Entry.pointed_frame ((writeEntry (zeroTable (writeEntry (zeroTable (writeEntry m p3f page.p3_index (a1 * 4096 ||| 3)) a1) a1 page.p2_index (a2 * 4096 ||| 3)) a2) a2 page.p1_index (frame.number * 4096 ||| (flags ||| PRESENT))).mem a2 page.p1_index) = some frame := by
    rw [writeEntry_mem_self]
    exact hpf
  have htr := translate_mapped (writeEntry (zeroTable (writeEntry (zeroTable (writeEntry m p3f page.p3_index (a1 * 4096 ||| 3)) a1) a1 page.p2_index (a2 * 4096 ||| 3)) a2) a2 page.p1_index (frame.number * 4096 ||| (flags ||| PRESENT))) page frame p3f a1 a2 k
    (page.number * 4096 + k) hnum hc hk rfl c4 c3 c2 c1
  simp only [map_to, n1, n2, n3]
  rw [is_unused_zero, if_pos rfl, hset]
  show translate (writeEntry (zeroTable (writeEntry (zeroTable (writeEntry m p3f page.p3_index (a1 * 4096 ||| 3)) a1) a1 page.p2_index (a2 * 4096 ||| 3)) a2) a2 page.p1_index (frame.number * 4096 ||| (flags ||| PRESENT))) (Page.start_address page + k) =
    .ok (some (Frame.start_address frame + k))
  rw [hstart, htr]
  unfold Frame.start_address PAGE_SIZE
  rw [show (frame.number * 4096 + k) % 2 ^ 64 =
    frame.number * 4096 % 2 ^ 64 + k by omega]

/-- map_to then translate, in the case where the P3 and P2 tables exist
but the P1 table is freshly created from the allocator frame a1. -/
theorem mt_create1 (m : Machine) (page : Page) (frame : Frame)
    (flags p3f p2f a1 : Nat) (rest : List Nat) (k : Nat)
    (e4 : next_table m m.root page.p4_index = some p3f)
    (e3 : next_table m p3f page.p3_index = some p2f)
    (e2 : next_table m p2f page.p2_index = none)
    (hd2 : m.root ≠ p2f) (hd3 : m.root ≠ a1)
    (hd4 : p3f ≠ p2f) (hd5 : p3f ≠ a1) (hd6 : p2f ≠ a1)
    (ha1 : a1 < 2 ^ 40)
    (hframe : frame.number < 2 ^ 40)
    (hflags : flags &&& 0x000ffffffffff000 = 0)
    (hnum : page.number < 2 ^ 52)
    (hc : is_canonical (page.number * 4096) = true)
    (hk : k < 4096) :
    (map_to m page frame flags (a1 :: rest)).bind
      (fun p => translate p.1 (Page.start_address page + k)) =
      .ok (some (Frame.start_address frame + k)) := by
  have hset := entry_set_ok frame (flags ||| PRESENT) hframe
  have hfpar : (flags ||| PRESENT) % 2 = 1 := by
    rw [show (PRESENT : Nat) = 1 by decide]
    exact or_one_mod_two flags
  have hfaddr : (flags ||| PRESENT) &&& 0x000ffffffffff000 = 0 := by
    rw [Nat.and_distrib_right, hflags,
      show (PRESENT &&& 0x000ffffffffff000 : Nat) = 0 by decide, Nat.or_zero]
  have hpf := pointed_frame_or frame.number (flags ||| PRESENT) hframe hfaddr hfpar
  have hstart : Page.start_address page + k = page.number * 4096 + k := by
    unfold Page.start_address PAGE_SIZE
    omega
  have n1 := ntc_existing (a1 :: rest) e4
  have n2 := ntc_existing (a1 :: rest) e3
  have n3 := ntc_fresh a1 rest e2 ha1
  have c4 : next_table (writeEntry (zeroTable (writeEntry m p2f page.p2_index (a1 * 4096 ||| 3)) a1) a1 page.p1_index (frame.number * 4096 ||| (flags ||| PRESENT))) (writeEntry (zeroTable (writeEntry m p2f page.p2_index (a1 * 4096 ||| 3)) a1) a1 page.p1_index (frame.number * 4096 ||| (flags ||| PRESENT))).root page.p4_index = some p3f := by
    rw [writeEntry_root, zeroTable_root, writeEntry_root]
    unfold next_table
    rw [writeEntry_mem_ne _ _ _ _ hd3, zeroTable_mem_ne _ _ hd3,
      writeEntry_mem_ne _ _ _ _ hd2]
    exact e4
  have c3 : next_table (writeEntry (zeroTable (writeEntry m p2f page.p2_index (a1 * 4096 ||| 3)) a1) a1 page.p1_index (frame.number * 4096 ||| (flags ||| PRESENT))) p3f page.p3_index = some p2f := by
    unfold next_table
    rw [writeEntry_mem_ne _ _ _ _ hd5, zeroTable_mem_ne _ _ hd5,
      writeEntry_mem_ne _ _ _ _ hd4]
    exact e3
  have c2 : next_table (writeEntry (zeroTable (writeEntry m p2f page.p2_index (a1 * 4096 ||| 3)) a1) a1 page.p1_index (frame.number * 4096 ||| (flags ||| PRESENT))) p2f page.p2_index = some a1 := by
    unfold next_table
    rw [writeEntry_mem_ne _ _ _ _ hd6, zeroTable_mem_ne _ _ hd6,
      writeEntry_mem_self]
    exact entry_next_table_ptr a1 ha1
  have c1 : Entry.pointed_frame ((writeEntry (zeroTable (writeEntry m p2f page.p2_index (a1 * 4096 ||| 3)) a1) a1 page.p1_index (frame.number * 4096 ||| (flags ||| PRESENT))).mem a1 page.p1_index) = some frame := by
    rw [writeEntry_mem_self]
    exact hpf
  have htr := translate_mapped (writeEntry (zeroTable (writeEntry m p2f page.p2_index (a1 * 4096 ||| 3)) a1) a1 page.p1_index (frame.number * 4096 ||| (flags ||| PRESENT))) page frame p3f p2f a1 k
    (page.number * 4096 + k) hnum hc hk rfl c4 c3 c2 c1
  simp only [map_to, n1, n2, n3]
  rw [is_unused_zero, if_pos rfl, hset]
  show translate (writeEntry (zeroTable (writeEntry m p2f page.p2_index (a1 * 4096 ||| 3)) a1) a1 page.p1_index (frame.number * 4096 ||| (flags ||| PRESENT))) (Page.start_address page + k) =
    .ok (some (Frame.start_address frame + k))
  rw [hstart, htr]
  unfold Frame.start_address PAGE_SIZE
  rw [show (frame.number * 4096 + k) % 2 ^ 64 =
    frame.number * 4096 % 2 ^ 64 + k by omega]

/-- map_to then translate, in the case where the P3, P2 and P1 tables all
exist and the P1 slot is unused: no allocator frame is consumed. -/
theorem mt_existing (m : Machine) (page : Page) (frame : Frame)
    (flags : Nat) (alloc : List Nat) (p3f p2f p1f : Nat) (k : Nat)
    (e4 : next_table m m.root page.p4_index = some p3f)
    (e3 : next_table m p3f page.p3_index = some p2f)
    (e2 : next_table m p2f page.p2_index = some p1f)
    (hd3 : m.root ≠ p1f) (hd5 : p3f ≠ p1f) (hd6 : p2f ≠ p1f)
    (hslot : Entry.is_unused (m.mem p1f page.p1_index) = true)
    (hframe : frame.number < 2 ^ 40)
    (hflags : flags &&& 0x000ffffffffff000 = 0)
    (hnum : page.number < 2 ^ 52)
    (hc : is_canonical (page.number * 4096) = true)
    (hk : k < 4096) :
    (map_to m page frame flags alloc).bind
      (fun p => translate p.1 (Page.start_address page + k)) =
      .ok (some (Frame.start_address frame + k)) := by
  have hset := entry_set_ok frame (flags ||| PRESENT) hframe
  have hfpar : (flags ||| PRESENT) % 2 = 1 := by
    rw [show (PRESENT : Nat) = 1 by decide]
    exact or_one_mod_two flags
  have hfaddr : (flags ||| PRESENT) &&& 0x000ffffffffff000 = 0 := by
    rw [Nat.and_distrib_right, hflags,
      show (PRESENT &&& 0x000ffffffffff000 : Nat) = 0 by decide, Nat.or_zero]
  have hpf := pointed_frame_or frame.number (flags ||| PRESENT) hframe hfaddr hfpar
  have hstart : Page.start_address page + k = page.number * 4096 + k := by
    unfold Page.start_address PAGE_SIZE
    omega
  have c4 : next_table (writeEntry m p1f page.p1_index (frame.number * 4096 ||| (flags ||| PRESENT))) (writeEntry m p1f page.p1_index (frame.number * 4096 ||| (flags ||| PRESENT))).root page.p4_index = some p3f := by
    rw [writeEntry_root]
    unfold next_table
    rw [writeEntry_mem_ne _ _ _ _ hd3]
    exact e4
  have c3 : next_table (writeEntry m p1f page.p1_index (frame.number * 4096 ||| (flags ||| PRESENT))) p3f page.p3_index = some p2f := by
    unfold next_table
    rw [writeEntry_mem_ne _ _ _ _ hd5]
    exact e3
  have c2 : next_table (writeEntry m p1f page.p1_index (frame.number * 4096 ||| (flags ||| PRESENT))) p2f page.p2_index = some p1f := by
    unfold next_table
    rw [writeEntry_mem_ne _ _ _ _ hd6]
    exact e2
  have c1 : Entry.pointed_frame ((writeEntry m p1f page.p1_index (frame.number * 4096 ||| (flags ||| PRESENT))).mem p1f page.p1_index) = some frame := by
    rw [writeEntry_mem_self]
    exact hpf
  have htr := translate_mapped (writeEntry m p1f page.p1_index (frame.number * 4096 ||| (flags ||| PRESENT))) page frame p3f p2f p1f k
    (page.number * 4096 + k) hnum hc hk rfl c4 c3 c2 c1
  simp only [map_to, ntc_existing alloc e4, ntc_existing alloc e3,
    ntc_existing alloc e2]
  rw [hslot, if_pos rfl, hset]
  show translate (writeEntry m p1f page.p1_index (frame.number * 4096 ||| (flags ||| PRESENT))) (Page.start_address page + k) =
    .ok (some (Frame.start_address frame + k))
  rw [hstart, htr]
  unfold Frame.start_address PAGE_SIZE
  rw [show (frame.number * 4096 + k) % 2 ^ 64 =
    frame.number * 4096 % 2 ^ 64 + k by omega]

/-- Claim C1: for every canonical page, every frame whose start address
fits in bits 12..51, every flag set, and every allocator able to supply
the needed intermediate-table frames (three fresh in-range frames,
distinct from each other and from the tables on the page's own lookup
path): if the page's P1 slot is unused, then after map_to(page, frame,
flags, allocator), translate(page.start_address() + k) returns
frame.start_address() + k for every k with 0 <= k < 4096.  The frames
p3f, p2f, p1f given by walk_path are the P3/P2/P1 table frames the
operation uses, existing or freshly allocated. -/
theorem C1_map_to_then_translate (m : Machine) (page : Page) (frame : Frame)
    (flags a1 a2 a3 : Nat) (rest : List Nat) (p3f p2f p1f k : Nat)
    (hwalk : walk_path m page a1 a2 a3 = (p3f, p2f, p1f))
    (hd1 : m.root ≠ p3f) (hd2 : m.root ≠ p2f) (hd3 : m.root ≠ p1f)
    (hd4 : p3f ≠ p2f) (hd5 : p3f ≠ p1f) (hd6 : p2f ≠ p1f)
    (ha1 : a1 < 2 ^ 40) (ha2 : a2 < 2 ^ 40) (ha3 : a3 < 2 ^ 40)
    (hframe : frame.number < 2 ^ 40)
    (hflags : flags &&& 0x000ffffffffff000 = 0)
    (hnum : page.number < 2 ^ 52)
    (hc : is_canonical (page.number * 4096) = true)
    (hslot : Entry.is_unused (m.mem p1f page.p1_index) = true)
    (hk : k < 4096) :
    (map_to m page frame flags (a1 :: a2 :: a3 :: rest)).bind
      (fun p => translate p.1 (Page.start_address page + k)) =
      .ok (some (Frame.start_address frame + k)) := by
  rcases e4 : next_table m m.root page.p4_index with _ | c3
  · rw [walk_path_eq_fresh m page a1 a2 a3 e4] at hwalk
    simp only [Prod.mk.injEq] at hwalk
    obtain ⟨h1, h2, h3⟩ := hwalk
    subst h1 h2 h3
    exact mt_fresh_all m page frame flags a1 a2 a3 rest k e4 hd1 hd2 hd3 hd4
      hd5 hd6 ha1 ha2 ha3 hframe hflags hnum hc hk
  · rcases e3 : next_table m c3 page.p3_index with _ | c2
    · rw [walk_path_eq_create2 m page a1 a2 a3 c3 e4 e3] at hwalk
      simp only [Prod.mk.injEq] at hwalk
      obtain ⟨h1, h2, h3⟩ := hwalk
      subst h1 h2 h3
      exact mt_create2 m page frame flags c3 a1 a2 (a3 :: rest) k e4 e3 hd1
        hd2 hd3 hd4 hd5 hd6 ha1 ha2 hframe hflags hnum hc hk
    · rcases e2 : next_table m c2 page.p2_index with _ | cq
      · rw [walk_path_eq_create1 m page a1 a2 a3 c3 c2 e4 e3 e2] at hwalk
        simp only [Prod.mk.injEq] at hwalk
        obtain ⟨h1, h2, h3⟩ := hwalk
        subst h1 h2 h3
        exact mt_create1 m page frame flags c3 c2 a1 (a2 :: a3 :: rest) k e4
          e3 e2 hd2 hd3 hd4 hd5 hd6 ha1 hframe hflags hnum hc hk
      · rw [walk_path_eq_existing m page a1 a2 a3 c3 c2 cq e4 e3 e2] at hwalk
        simp only [Prod.mk.injEq] at hwalk
        obtain ⟨h1, h2, h3⟩ := hwalk
        subst h1 h2 h3
        exact mt_existing m page frame flags (a1 :: a2 :: a3 :: rest) c3 c2
          cq k e4 e3 e2 hd3 hd5 hd6 hslot hframe hflags hnum hc hk

/-- Claim C1 witness: from the empty machine, mapping page 0 to frame 5
with empty flags through allocator frames 1, 2, 3 makes translate of
offset 7 return 5 * 4096 + 7. -/
theorem C1_map_to_then_translate_witness :
    walk_path m0 ⟨0⟩ 1 2 3 = (1, 2, 3) ∧
    m0.root ≠ 1 ∧ m0.root ≠ 2 ∧ m0.root ≠ 3 ∧
    (1 : Nat) ≠ 2 ∧ (1 : Nat) ≠ 3 ∧ (2 : Nat) ≠ 3 ∧
    (1 : Nat) < 2 ^ 40 ∧ (2 : Nat) < 2 ^ 40 ∧ (3 : Nat) < 2 ^ 40 ∧
    (Frame.mk 5).number < 2 ^ 40 ∧
    (0 : Nat) &&& 0x000ffffffffff000 = 0 ∧
    (Page.mk 0).number < 2 ^ 52 ∧
    is_canonical ((Page.mk 0).number * 4096) = true ∧
    Entry.is_unused (m0.mem 3 (Page.p1_index ⟨0⟩)) = true ∧
    (7 : Nat) < 4096 ∧
    (map_to m0 ⟨0⟩ ⟨5⟩ 0 [1, 2, 3]).bind
      (fun p => translate p.1 (Page.start_address ⟨0⟩ + 7)) =
      .ok (some (Frame.start_address ⟨5⟩ + 7)) :=
  by
  have d01 : walk_path m0 ⟨0⟩ 1 2 3 = (1, 2, 3) := by decide
  have d02 : m0.root ≠ 1 := by decide
  have d03 : m0.root ≠ 2 := by decide
  have d04 : m0.root ≠ 3 := by decide
  have d05 : (1 : Nat) ≠ 2 := by decide
  have d06 : (1 : Nat) ≠ 3 := by decide
  have d07 : (2 : Nat) ≠ 3 := by decide
  have d08 : (1 : Nat) < 2 ^ 40 := by decide
  have d09 : (2 : Nat) < 2 ^ 40 := by decide
  have d10 : (3 : Nat) < 2 ^ 40 := by decide
  have d11 : (Frame.mk 5).number < 2 ^ 40 := by decide
  have d12 : (0 : Nat) &&& 0x000ffffffffff000 = 0 := by decide
  have d13 : (Page.mk 0).number < 2 ^ 52 := by decide
  have d14 : is_canonical ((Page.mk 0).number * 4096) = true := by decide
  have d15 : Entry.is_unused (m0.mem 3 (Page.p1_index ⟨0⟩)) = true := by decide
  have d16 : (7 : Nat) < 4096 := by decide
  exact ⟨d01, d02, d03, d04, d05, d06, d07, d08, d09, d10, d11, d12, d13,
    d14, d15, d16,
    C1_map_to_then_translate m0 ⟨0⟩ ⟨5⟩ 0 1 2 3 [] 1 2 3 7 d01 d02 d03 d04
      d05 d06 d07 d08 d09 d10 d11 d12 d13 d14 d15 d16⟩

/-! ### Area allocator lemmas -/

theorem allocate_frame_spec {st : AreaFrameAllocator} {fr : Frame}
    {st2 : AreaFrameAllocator} (h : allocate_frame st = some (fr, st2)) :
    st.next_free_frame ≤ fr.number ∧ frame_excluded st fr.number = false ∧
      st2 = { st with next_free_frame := fr.number + 1 } := by
  unfold allocate_frame at h
  rcases hh : ((List.range (frame_limit st)).filter (fun f =>
      decide (st.next_free_frame ≤ f) && st.areas.any (frame_in_area f) &&
        !frame_excluded st f)).head? with _ | f
  · rw [hh] at h
    simp at h
  · rw [hh] at h
    rw [Option.map_some'] at h
    injection h with h1
    injection h1 with hA hB
    subst hA
    subst hB
    have hf : f ∈ (List.range (frame_limit st)).filter (fun f =>
        decide (st.next_free_frame ≤ f) && st.areas.any (frame_in_area f) &&
          !frame_excluded st f) := by
      rcases List.head?_eq_some_iff.mp hh with ⟨ys, hys⟩
      rw [hys]
      exact List.mem_cons_self f ys
    rw [List.mem_filter] at hf
    obtain ⟨hmem, hp⟩ := hf
    simp only [Bool.and_eq_true, decide_eq_true_eq, Bool.not_eq_true'] at hp
    exact ⟨hp.1.1, hp.2, rfl⟩

theorem alloc_run_lb (n : Nat) :
    ∀ st : AreaFrameAllocator, ∀ x ∈ alloc_run st n,
      st.next_free_frame ≤ x := by
  induction n with
  | zero =>
    intro st x hx
    simp [alloc_run] at hx
  | succ n ih =>
    intro st x hx
    unfold alloc_run at hx
    rcases ha : allocate_frame st with _ | p
    · rw [ha] at hx
      simp at hx
    · obtain ⟨fr, st2⟩ := p
      rw [ha] at hx
      simp only [List.mem_cons] at hx
      obtain ⟨hc1, hc2, hst2⟩ := allocate_frame_spec ha
      rcases hx with rfl | hx
      · exact hc1
      · have h2 := ih st2 x hx
        rw [hst2] at h2
        have h3 : fr.number + 1 ≤ x := h2
        omega

theorem alloc_run_pairwise (n : Nat) :
    ∀ st : AreaFrameAllocator, (alloc_run st n).Pairwise (fun a b => a < b) := by
  induction n with
  | zero =>
    intro st
    simp [alloc_run]
  | succ n ih =>
    intro st
    unfold alloc_run
    rcases ha : allocate_frame st with _ | p
    · simp
    · obtain ⟨fr, st2⟩ := p
      simp only []
      refine List.Pairwise.cons ?_ (ih st2)
      intro x hx
      obtain ⟨hc1, hc2, hst2⟩ := allocate_frame_spec ha
      have h2 := alloc_run_lb n st2 x hx
      rw [hst2] at h2
      have h3 : fr.number + 1 ≤ x := h2
      omega

theorem alloc_run_not_excluded (n : Nat) :
    ∀ st : AreaFrameAllocator, ∀ x ∈ alloc_run st n,
      frame_excluded st x = false := by
  induction n with
  | zero =>
    intro st x hx
    simp [alloc_run] at hx
  | succ n ih =>
    intro st x hx
    unfold alloc_run at hx
    rcases ha : allocate_frame st with _ | p
    · rw [ha] at hx
      simp at hx
    · obtain ⟨fr, st2⟩ := p
      rw [ha] at hx
      simp only [List.mem_cons] at hx
      obtain ⟨hc1, hc2, hst2⟩ := allocate_frame_spec ha
      rcases hx with rfl | hx
      · exact hc2
      · have h2 := ih st2 x hx
        rw [hst2] at h2
        exact h2

/-- Claim C8: with one usable region [0, 0x100000), the kernel image at
[0x10000, 0x20000) and boot information at [0x20000, 0x21000), no
sequence of allocate_frame calls ever returns a frame whose start
address falls in [0x10000, 0x21000), and the returned frame numbers are
strictly increasing. -/
theorem C8_area_allocator_exclusion (n : Nat) :
    (alloc_run c8Alloc n).all
      (fun f => decide ¬(0x10000 ≤ f * 4096 ∧ f * 4096 < 0x21000)) = true ∧
    (alloc_run c8Alloc n).Pairwise (fun a b => a < b) := by
  constructor
  · rw [List.all_eq_true]
    intro x hx
    have hex := alloc_run_not_excluded n c8Alloc x hx
    unfold frame_excluded frame_overlaps c8Alloc at hex
    simp only [Bool.or_eq_false_iff, Bool.and_eq_false_iff,
      decide_eq_false_iff_not] at hex
    simp only [decide_eq_true_eq]
    omega
  · exact alloc_run_pairwise n c8Alloc

end Nephelia
